import Mathlib

/-!
# Verification of the Podcast-Generator audio pipeline

Shallow embedding of `server/podcast_generator.py`: the silence trimmer
(`trim_audio_silence`), the configuration loader (`_load_configuration_path`),
the concatenation/cleanup step (`merge_audio_files`), the per-item synthesis
retry loop (`generate_audio_for_item`), the speaker resolver
(`generate_speaker_id_text`), the synthesis orchestrator
(`_generate_all_audio_files` / `_create_ffmpeg_file_list`), the JSON script
extraction scan and its retry driver (`_generate_podcast_script`).

Modelling conventions:
* Python floats are modelled as rationals (`ℚ`); the claims are about
  order/arithmetic relations that are exact in the source expressions.
* A missing (`None`) or empty Python string is modelled as `""`
  (both are falsy in every source-side check that the claims touch).
* External subprocesses (ffmpeg/ffprobe) are modelled at their boundary:
  their observable inputs/outputs are parameters or abstract actions.
-/

namespace PodcastGen

/-! ## SilenceTrimmer (`trim_audio_silence`, lines 253-361)

The source detects silence intervals by parsing ffmpeg `silencedetect`
stderr; the detected `silence_starts` / `silence_ends` lists and the probed
duration are the boundary inputs to the pure trimming decision, so the
embedding takes them as parameters.  The decision is one of: copy the source
verbatim (`ffmpeg -c copy`, the code path at lines 267, 315 and 340), or
re-encode the window `[s, e)` (lines 343-353). -/

/-- The action `trim_audio_silence` performs on the input file. -/
inductive TrimAction where
  /-- `ffmpeg -i in -c copy out`: the audio stream is copied, no re-encode. -/
  | copyVerbatim : TrimAction
  /-- `ffmpeg -ss s -i in -to e -c:a libmp3lame`: re-encode the window. -/
  | reencodeWindow (s e : ℚ) : TrimAction
deriving DecidableEq, Repr

/-- Default `min_silence_duration` parameter (0.5 s). -/
def minSilenceDuration : ℚ := 1/2

/-- `padding_ms = 0.2` in the source (the comment in the code says 30 ms but
the value used is 0.2 s). -/
def paddingGuard : ℚ := 1/5

/-- `trim_audio_silence`, reduced to its decision on the boundary data:
`enableTrim` is the `enable_trim` argument, `duration` the result of
`get_audio_duration` (`none` when the duration cannot be determined), and
`silenceStarts`/`silenceEnds` the interval lists parsed from the
`silencedetect` output. -/
def trim_audio_silence (enableTrim : Bool) (duration : Option ℚ)
    (silenceStarts silenceEnds : List ℚ) (minSilence : ℚ) : TrimAction :=
  if !enableTrim then
    TrimAction.copyVerbatim
  else
    match duration with
    | none => TrimAction.copyVerbatim
    | some currentAudioDuration =>
      let startTrimVal₀ : ℚ := 0
      let endTrimVal₀ : ℚ := currentAudioDuration
      let startTrimVal :=
        if silenceStarts ≠ [] ∧ silenceEnds ≠ [] then
          if silenceStarts.headD 0 = 0 then
            max 0 (silenceEnds.headD 0 - paddingGuard)
          else startTrimVal₀
        else startTrimVal₀
      let endTrimVal :=
        if silenceStarts ≠ [] ∧ silenceEnds ≠ [] then
          if silenceEnds.getLastD 0 ≥ endTrimVal₀ - minSilence then
            min currentAudioDuration (silenceStarts.getLastD 0 + paddingGuard)
          else endTrimVal₀
        else endTrimVal₀
      if endTrimVal - startTrimVal ≤ 1/100 then
        TrimAction.copyVerbatim
      else
        TrimAction.reencodeWindow startTrimVal endTrimVal

/-- Abstract content of an audio file after the trim step: either the
original byte stream untouched, or the result of re-encoding a window of it.
`ffmpeg -c copy` transfers the audio stream without re-encoding. -/
inductive AudioData where
  | raw (bytes : List Nat) : AudioData
  | reencodedWindow (src : List Nat) (s e : ℚ) : AudioData
deriving DecidableEq, Repr

/-- Applying a `TrimAction` to the input file's bytes. -/
def applyTrim (a : TrimAction) (input : List Nat) : AudioData :=
  match a with
  | TrimAction.copyVerbatim => AudioData.raw input
  | TrimAction.reencodeWindow s e => AudioData.reencodedWindow input s e

/-! ## Configuration loading (`_load_configuration_path`, lines 391-420) -/

/-- One entry of the speaker roster (`podUsers`).  Missing fields are `""`
(Python `None` and `""` behave identically in the truthiness checks the
source performs on them). -/
structure PodUser where
  code : String
  owner : String
  role : String
deriving DecidableEq, Repr

/-- `os.path.basename`: the part of the path after the last `/`. -/
def basename (p : String) : String :=
  ⟨p.data.foldl (fun acc c => if c = '/' then [] else acc ++ [c]) []⟩

/-- `os.path.splitext(...)[0]`: drop the extension after the last dot.
Only used for the (dead) `default_tts_provider` binding of the source. -/
def splitextStem (name : String) : String :=
  match (name.splitOn ".") with
  | [] => name
  | [s] => s
  | parts => String.intercalate "." (parts.dropLast)

/-- The distinct non-empty `owner` values of the roster.  The source builds
`list(set(...))`, whose enumeration order is unspecified; the claims only
depend on the owners as a set, and `List.dedup` fixes one canonical
duplicate-free enumeration. -/
def distinctOwners (podUsers : List PodUser) : List String :=
  (podUsers.filterMap fun u => if u.owner ≠ "" then some u.owner else none).dedup

/-- The `tts_provider` value computed by `_load_configuration_path`:
if any roster entry carries a non-empty `owner`, the comma-joined distinct
owners; otherwise the literal constant `"edge-tts"` (NOT the
`default_tts_provider` derived from the file basename, which the source
computes but never uses in this branch). -/
def load_configuration_path_provider (configPath : String)
    (podUsers : List PodUser) : String :=
  let _defaultProvider := splitextStem (basename configPath)
  let owners := distinctOwners podUsers
  if owners ≠ [] then String.intercalate "," owners
  else "edge-tts"

/-! ## Concatenator (`merge_audio_files`, lines 127-218)

The file system visible to the function is modelled as an association list
from path to file content (a list of text lines).  The two external ffmpeg
invocations (concat to WAV, WAV to MP3) are modelled by success flags and
abstract produced contents.  The `finally:` block (lines 182-218) is the
cleanup under verification: it runs on every exit path. -/

/-- Global `output_dir = "output"`. -/
def outputDir : String := "output"

/-- `os.path.join` for the forward-slash paths the source uses. -/
def pathJoin (a b : String) : String := a ++ "/" ++ b

/-- A flat file system: path ↦ content (text lines). -/
structure FileSys where
  files : List (String × List String)
deriving DecidableEq, Repr

/-- `os.path.exists`. -/
def FileSys.pathExists (fs : FileSys) (p : String) : Bool :=
  fs.files.any (fun f => f.1 = p)

/-- Reading a file's lines (first entry wins, paths are unique in practice). -/
def FileSys.read (fs : FileSys) (p : String) : Option (List String) :=
  (fs.files.find? (fun f => f.1 = p)).map (fun f => f.2)

/-- `os.remove` (also models the no-op when the file is absent, since the
source guards every removal with `os.path.exists` / ignores `OSError`). -/
def FileSys.remove (fs : FileSys) (p : String) : FileSys :=
  ⟨fs.files.filter (fun f => ¬ f.1 = p)⟩

/-- Creating/overwriting a file. -/
def FileSys.write (fs : FileSys) (p : String) (content : List String) : FileSys :=
  ⟨(fs.remove p).files ++ [(p, content)]⟩

/-- Python `str.strip()`: drop leading and trailing whitespace. -/
def pyStrip (s : String) : String :=
  ⟨(((s.data.dropWhile Char.isWhitespace).reverse.dropWhile Char.isWhitespace).reverse)⟩

/-- Python `str.strip("'\"")`: drop leading and trailing quote characters. -/
def stripQuotes (s : String) : String :=
  let isQuote : Char → Bool := fun c => c = '\'' ∨ c = '"'
  ⟨(((s.data.dropWhile isQuote).reverse.dropWhile isQuote).reverse)⟩

/-- Parse one manifest line as the cleanup loop does (lines 190-192):
lines of the form `file '<name>'` yield the quoted name, other lines are
ignored. -/
def parseFileLine (line : String) : Option String :=
  if "file ".data.isPrefixOf line.data then
    some (stripQuotes (pyStrip ⟨line.data.drop 5⟩))
  else none

/-- The cleanup loop over the manifest lines (lines 188-199): delete every
audio file named by a `file ` line, resolved against `output_dir`. -/
def removeListed (fs : FileSys) : List String → FileSys
  | [] => fs
  | line :: rest =>
    match parseFileLine line with
    | some name => removeListed (fs.remove (pathJoin outputDir name)) rest
    | none => removeListed fs rest

/-- The whole `finally:` block of `merge_audio_files`: if the manifest
exists, delete the files it lists and then the manifest itself
(lines 186-206); afterwards delete the intermediate WAV (lines 211-216). -/
def mergeCleanup (fs : FileSys) (fileListPath wavPath : String) : FileSys :=
  let fs₁ :=
    match fs.read fileListPath with
    | none => fs
    | some lines => (removeListed fs lines).remove fileListPath
  fs₁.remove wavPath

/-- Result and final file-system state of `merge_audio_files`. -/
structure MergeOutcome where
  result : Except String String
  fs : FileSys
deriving Repr

/-- `merge_audio_files`: `stem` is the `{unique_id}{timestamp}` part of the
output names, `concatOk`/`mp3Ok` whether the two external ffmpeg invocations
succeed, `wavContent`/`mp3Content` what they produce on success.  The
`finally:` cleanup runs on every path. -/
def merge_audio_files (fs : FileSys) (fileListPath stem : String)
    (wavContent mp3Content : List String) (concatOk mp3Ok : Bool) :
    MergeOutcome :=
  let wavPath := pathJoin outputDir (stem ++ ".wav")
  let mp3Path := pathJoin outputDir (stem ++ ".mp3")
  let tryOutcome : Except String String × FileSys :=
    if concatOk then
      let fs₁ := fs.write wavPath wavContent
      if mp3Ok then
        (Except.ok (stem ++ ".mp3"), fs₁.write mp3Path mp3Content)
      else
        (Except.error "Error merging or converting audio files with FFmpeg: <mp3 stderr>", fs₁)
    else
      (Except.error "Error merging or converting audio files with FFmpeg: <concat stderr>", fs)
  { result := tryOutcome.1
    fs := mergeCleanup tryOutcome.2 fileListPath wavPath }

/-! ## Per-item synthesis retry (`generate_audio_for_item`, lines 654-704)

The backend adapter call is the boundary: its behaviour is a function from
attempt number to outcome.  A `RuntimeError` from the adapter is the
transient kind (retried); any other exception is unexpected (not retried). -/

/-- Outcome of one backend `generate_audio` call. -/
inductive CallOutcome where
  | success (path : String) : CallOutcome
  | transient : CallOutcome
  | unexpected : CallOutcome
deriving DecidableEq, Repr

/-- How the retry loop of `generate_audio_for_item` ends. -/
inductive RetryResult where
  | ok (path : String) : RetryResult
  | maxRetriesReached : RetryResult
  | unexpectedFailure : RetryResult
  /-- `for attempt in range(max_retries)` never ran (`max_retries ≤ 0`):
  the Python function falls through and returns `None`. -/
  | noAttempt : RetryResult
deriving DecidableEq, Repr

/-- Trace of the retry loop: its result, how many backend calls were made,
and the `time.sleep` waits (in seconds) between attempts, in order. -/
structure RetryTrace where
  result : RetryResult
  calls : Nat
  waits : List Nat
deriving DecidableEq, Repr

/-- The loop `for attempt in range(max_retries)` (lines 684-704), written
with the remaining attempt budget as the structural argument: budget
`fuel = max_retries - attempt`, so `fuel = 1` is the last attempt (the
branch `attempt < max_retries - 1` is false there: no wait, escalate). -/
def retryLoopGo (behavior : Nat → CallOutcome) : Nat → Nat → RetryTrace
  | _, 0 => ⟨RetryResult.noAttempt, 0, []⟩
  | attempt, 1 =>
    match behavior attempt with
    | CallOutcome.success p => ⟨RetryResult.ok p, 1, []⟩
    | CallOutcome.transient => ⟨RetryResult.maxRetriesReached, 1, []⟩
    | CallOutcome.unexpected => ⟨RetryResult.unexpectedFailure, 1, []⟩
  | attempt, fuel+2 =>
    match behavior attempt with
    | CallOutcome.success p => ⟨RetryResult.ok p, 1, []⟩
    | CallOutcome.transient =>
      let rest := retryLoopGo behavior (attempt+1) (fuel+1)
      ⟨rest.result, rest.calls + 1, 2^attempt :: rest.waits⟩
    | CallOutcome.unexpected => ⟨RetryResult.unexpectedFailure, 1, []⟩

/-- The retry part of `generate_audio_for_item`, starting at attempt 0. -/
def generate_audio_retry (behavior : Nat → CallOutcome) (maxRetries : Nat) :
    RetryTrace :=
  retryLoopGo behavior 0 maxRetries

/-- Line 723: `max_retries = config_data.get("tts_max_retries", 3)` — the
per-task attempt limit the orchestrator passes to
`generate_audio_for_item`. -/
def ttsMaxRetries (configValue : Option Nat) : Nat := configValue.getD 3

/-! ## SpeakerResolver (`generate_speaker_id_text`, lines 100-125) -/

/-- One entry of the voice catalog (`voices`).  String fields default to
`""` (≡ missing), numeric tuning fields to 0. -/
structure Voice where
  code : String
  usedname : String
  aliasName : String
  name : String
  volume_adjustment : ℚ
  speed_adjustment : ℚ
deriving DecidableEq, Repr

/-- Python `a or b` on strings. -/
def pyOr (a b : String) : String := if a ≠ "" then a else b

/-- The `voice_map` dict comprehension (line 105): keys are non-empty voice
codes; for duplicate codes the last entry wins, hence the reversed search. -/
def voiceMapGet (voices : List Voice) (c : String) : Option Voice :=
  ((voices.filter (fun v => v.code ≠ "")).reverse).find? (fun v => v.code = c)

/-- The display name resolved for a voice code (lines 112-115):
`usedname` or `alias` or `name`, first non-empty; `""` when the code has no
catalog entry. -/
def foundName (voices : List Voice) (code : String) : String :=
  match voiceMapGet voices code with
  | some v => pyOr v.usedname (pyOr v.aliasName v.name)
  | none => ""

/-- The enumerated loop body of `generate_speaker_id_text`: one briefing
clause per roster entry, or the fatal `ValueError` at the first entry whose
code resolves to no name. -/
def speakerInfoEntries (voices : List Voice) :
    List PodUser → Nat → Except String (List String)
  | [], _ => Except.ok []
  | u :: rest, speakerId =>
    let fn := foundName voices u.code
    if fn ≠ "" then
      let clause :=
        if u.role ≠ "" then
          "speaker_id=" ++ toString speakerId ++ "的名叫" ++ fn ++ "，是一个" ++ u.role
        else
          "speaker_id=" ++ toString speakerId ++ "的名叫" ++ fn
      (speakerInfoEntries voices rest (speakerId+1)).map (fun l => clause :: l)
    else
      Except.error ("语音code \x27" ++ u.code ++ "\x27 (speaker_id=" ++
        toString speakerId ++ ") 未找到对应名称或alias。请检查 config/edge-tts.json 中的 voices 配置。")

/-- `generate_speaker_id_text` (lines 100-125). -/
def generate_speaker_id_text (podUsers : List PodUser) (voices : List Voice) :
    Except String String :=
  (speakerInfoEntries voices podUsers 0).map
    (fun l => String.intercalate "。" l ++ "。")

/-! ## Per-item synthesis (`generate_audio_for_item`, lines 654-704) -/

/-- One utterance of the parsed script. -/
structure Transcript where
  speaker_id : Int
  dialog : String
deriving DecidableEq, Repr

/-- Path of the trimmed clip the orchestrator derives for an original clip
(line 742): `os.path.join(output_dir, f"trimmed_{basename(original)}")`. -/
def trimmedPath (orig : String) : String :=
  pathJoin outputDir ("trimmed_" ++ basename orig)

/-- `generate_audio_for_item` for one item: resolves the roster entry for
`speaker_id`, fails with the `ValueError` of line 676 when no voice code is
found (before any backend call), fails with the `KeyError` of line 679 when
the owner has no registered adapter (also before any backend call), and
otherwise runs the retry loop.  Returns the result (clip path or error
message; `""` models Python `None` for the fall-through case) together with
the number of backend `generate_audio` calls made. -/
def generate_audio_for_item (speakerId : Int) (podUsers : List PodUser)
    (adapters : List String) (behavior : Nat → CallOutcome)
    (maxRetries : Nat) : Except String String × Nat :=
  let inRange := 0 ≤ speakerId ∧ speakerId < (podUsers.length : Int)
  let entry : Option PodUser :=
    if inRange then podUsers.get? speakerId.toNat else none
  let voiceCode := (entry.map PodUser.code).getD ""
  let owner := (entry.map PodUser.owner).getD ""
  if voiceCode = "" then
    (Except.error ("No voice code found for speaker_id " ++ toString speakerId ++
      ". Cannot generate audio for this dialog."), 0)
  else if ¬ (owner ∈ adapters) then
    (Except.error ("KeyError: " ++ owner), 0)
  else
    let trace := generate_audio_retry behavior maxRetries
    let r : Except String String :=
      match trace.result with
      | RetryResult.ok p => Except.ok p
      | RetryResult.maxRetriesReached =>
        Except.error ("Max retries (" ++ toString maxRetries ++
          ") reached for speaker " ++ toString speakerId ++ " (" ++ voiceCode ++
          "). Audio generation failed.")
      | RetryResult.unexpectedFailure =>
        Except.error ("An unexpected error occurred for speaker " ++
          toString speakerId ++ " (" ++ voiceCode ++ ")")
      | RetryResult.noAttempt => Except.ok ""
    (r, trace.calls)

/-- The `threads = 1` schedule of `_generate_all_audio_files`: items execute
in submission order, the first failing item stops the run (the remaining
tasks are cancelled before they start).  Accumulates the index-keyed trimmed
clips and the total number of backend calls. -/
def runSynthSeqFrom (podUsers : List PodUser) (adapters : List String)
    (behaviors : Nat → Nat → CallOutcome) (maxRetries : Nat) :
    List Transcript → Nat → Except String (List (Nat × String)) × Nat
  | [], _ => (Except.ok [], 0)
  | item :: rest, i =>
    let (r, calls) :=
      generate_audio_for_item item.speaker_id podUsers adapters
        (behaviors i) maxRetries
    match r with
    | Except.ok p =>
      let (rr, restCalls) :=
        runSynthSeqFrom podUsers adapters behaviors maxRetries rest (i+1)
      (rr.map (fun l => if p ≠ "" then (i, trimmedPath p) :: l else l),
       calls + restCalls)
    | Except.error m =>
      (Except.error ("Error generating or trimming audio for item " ++
        toString i ++ ": " ++ m), calls)

/-- The resolution-then-synthesis order of `generate_podcast_audio_api`:
`_prepare_podcast_prompts` (which calls `generate_speaker_id_text`) runs
before `_generate_all_audio_files`, so a resolver failure yields zero
backend calls. -/
def runResolutionPipeline (podUsers : List PodUser) (voices : List Voice)
    (items : List Transcript) (adapters : List String)
    (behaviors : Nat → Nat → CallOutcome) (maxRetries : Nat) :
    Except String (List (Nat × String)) × Nat :=
  match generate_speaker_id_text podUsers voices with
  | Except.error e => (Except.error e, 0)
  | Except.ok _ =>
    runSynthSeqFrom podUsers adapters behaviors maxRetries items 0

/-- Claim-side predicate (from the spec's words, for stating C3): an
utterance's `speaker_id` resolves to exactly one voice code with a
non-empty display name. -/
def utteranceResolves (podUsers : List PodUser) (voices : List Voice)
    (t : Transcript) : Prop :=
  ∃ u, (0 ≤ t.speaker_id ∧ t.speaker_id < (podUsers.length : Int)) ∧
    podUsers.get? t.speaker_id.toNat = some u ∧
    u.code ≠ "" ∧ foundName voices u.code ≠ ""

/-! ## SynthesisOrchestrator (`_generate_all_audio_files`, lines 706-767,
and `_create_ffmpeg_file_list`, lines 769-791)

For the ordering claims, worker completion order is abstract: the
`as_completed` stream is a permutation of the submitted indices, and each
completed future carries either its original clip path or the exception
message of its task (synthesis or trimming). -/

/-- What the main loop observes for one completed future: `future.result()`
combined with the trim step performed on it. -/
inductive TaskOutcome where
  | ok (path : String) : TaskOutcome
  | err (msg : String) : TaskOutcome
deriving DecidableEq, Repr

/-- The `RuntimeError` message wrapped around the first failure
(line 752). -/
def itemErrorMsg (index : Nat) (msg : String) : String :=
  "Error generating or trimming audio for item " ++ toString index ++ ": " ++ msg

/-- The `for future in as_completed(...)` loop (lines 736-754): consume
completion events in order, adding `(index, trimmed path)` to the dict for
each truthy result, stopping at the first exception.  On failure returns
the wrapped message, the not-yet-consumed indices (those whose futures get
`cancel()` called on them), and the dict so far. -/
def consumeResults (outcome : Nat → TaskOutcome) :
    List Nat → List (Nat × String) →
    List (Nat × String) ⊕ (String × List Nat × List (Nat × String))
  | [], dict => Sum.inl dict
  | i :: rest, dict =>
    match outcome i with
    | TaskOutcome.ok p =>
      consumeResults outcome rest
        (if p ≠ "" then dict ++ [(i, trimmedPath p)] else dict)
    | TaskOutcome.err m => Sum.inr (itemErrorMsg i m, rest, dict)

/-- `_generate_all_audio_files` after submission: either the list
`[audio_files_dict[i] for i in sorted(audio_files_dict.keys())]` or the
raised error. -/
def generate_all_audio_files (outcome : Nat → TaskOutcome)
    (completionOrder : List Nat) : Except String (List String) :=
  match consumeResults outcome completionOrder [] with
  | Sum.inl dict =>
    Except.ok ((List.insertionSort (· ≤ ·) (dict.map (fun kv => kv.1))).map
      (fun k => (((dict.find? (fun kv => kv.1 = k)).map (fun kv => kv.2)).getD "")))
  | Sum.inr (msg, _, _) => Except.error msg

/-- The indices whose futures receive a `cancel()` call (lines 759-761):
everything not consumed before the break. -/
def cancelledTasks (outcome : Nat → TaskOutcome)
    (completionOrder : List Nat) : List Nat :=
  match consumeResults outcome completionOrder [] with
  | Sum.inl _ => []
  | Sum.inr (_, rest, _) => rest

/-- Error message of line 772. -/
def noFilesMsg : String := "No audio files were generated to merge."

/-- Error message of line 775. -/
def mismatchMsg (expected got : Nat) : String :=
  "Mismatch in audio file count. Expected " ++ toString expected ++
    ", but got " ++ toString got ++
    ". Some audio files might be missing or an error occurred during generation."

/-- `_create_ffmpeg_file_list`: validates the count, then produces the
manifest lines `file '<basename>'` in the given order. -/
def create_ffmpeg_file_list (audioFiles : List String) (expectedCount : Nat) :
    Except String (List String) :=
  if audioFiles = [] then Except.error noFilesMsg
  else if audioFiles.length ≠ expectedCount then
    Except.error (mismatchMsg expectedCount audioFiles.length)
  else
    Except.ok (audioFiles.map (fun f => "file \x27" ++ basename f ++ "\x27"))

/-- The tail of the run: orchestrator, then manifest creation; the claims
need that `merge_audio_files` (which alone creates the output file) is only
reached when this succeeds. -/
def runGeneration (outcome : Nat → TaskOutcome) (completionOrder : List Nat)
    (expectedCount : Nat) : Except String (List String) :=
  match generate_all_audio_files outcome completionOrder with
  | Except.error e => Except.error e
  | Except.ok files => create_ffmpeg_file_list files expectedCount

/-! ## ScriptExtractor (`_generate_podcast_script`, lines 570-652)

The scan loop (lines 586-604) drives Python's `json.JSONDecoder().raw_decode`
over the raw response.  The decoder is the standard library, not repository
code; it is embedded here as a JSON parser over `List Char` covering the
forms the pipeline's script contract uses (objects, arrays, strings with
simple escapes, integer numbers, `true`/`false`/`null`).  Like `raw_decode`
it does not skip leading whitespace and stops at the end of the first
complete value, reporting the unconsumed remainder. -/

/-- JSON values. -/
inductive JVal where
  | null : JVal
  | bool (b : Bool) : JVal
  | num (n : Int) : JVal
  | str (s : List Char) : JVal
  | arr (xs : List JVal) : JVal
  | obj (fields : List (List Char × JVal)) : JVal

/-- JSON inter-token whitespace. -/
def isJsonWs (c : Char) : Bool :=
  c = ' ' ∨ c = '\t' ∨ c = '\n' ∨ c = '\r'

/-- Skip whitespace between tokens (inside composite values only —
`raw_decode` fails on leading whitespace at the top level). -/
def skipWs (s : List Char) : List Char := s.dropWhile isJsonWs

/-- Translate a character following a backslash in a JSON string. -/
def unescapeChar (c : Char) : Char :=
  if c = 'n' then '\n'
  else if c = 't' then '\t'
  else if c = 'r' then '\r'
  else c

/-- Parse the rest of a JSON string after the opening quote; returns the
string's characters and the remainder after the closing quote. -/
def parseStringRest : List Char → Option (List Char × List Char)
  | [] => none
  | c :: rest =>
    if c = '"' then some ([], rest)
    else if c = '\\' then
      match rest with
      | [] => none
      | e :: rest2 =>
        match parseStringRest rest2 with
        | some (cs, r) => some (unescapeChar e :: cs, r)
        | none => none
    else
      match parseStringRest rest with
      | some (cs, r) => some (c :: cs, r)
      | none => none

/-- Digits to a natural number. -/
def digitsToNat (ds : List Char) : Nat :=
  ds.foldl (fun acc c => acc * 10 + (c.toNat - '0'.toNat)) 0

/-- Parse an integer JSON number. -/
def parseNum (s : List Char) : Option (JVal × List Char) :=
  match s with
  | '-' :: rest =>
    let digits := rest.takeWhile Char.isDigit
    if digits = [] then none
    else some (JVal.num (-(digitsToNat digits : Int)), rest.drop digits.length)
  | _ =>
    let digits := s.takeWhile Char.isDigit
    if digits = [] then none
    else some (JVal.num (digitsToNat digits : Int), s.drop digits.length)

mutual

/-- Parse one JSON value at the head of the input (no leading-whitespace
skip, as with `raw_decode`).  `fuel` bounds the recursion depth; every
mutual call consumes at least one input character per two fuel ticks, so
`2·|input| + 2` fuel never runs out on inputs the Python decoder accepts. -/
def parseVal : Nat → List Char → Option (JVal × List Char)
  | 0, _ => none
  | _+1, [] => none
  | fuel+1, c :: rest =>
    if c = '{' then
      match parseFields fuel (skipWs rest) true with
      | some (fs, r) => some (JVal.obj fs, r)
      | none => none
    else if c = '[' then
      match parseElems fuel (skipWs rest) true with
      | some (vs, r) => some (JVal.arr vs, r)
      | none => none
    else if c = '"' then
      match parseStringRest rest with
      | some (cs, r) => some (JVal.str cs, r)
      | none => none
    else if c = 't' then
      if rest.take 3 = ['r', 'u', 'e'] then some (JVal.bool true, rest.drop 3)
      else none
    else if c = 'f' then
      if rest.take 4 = ['a', 'l', 's', 'e'] then some (JVal.bool false, rest.drop 4)
      else none
    else if c = 'n' then
      if rest.take 3 = ['u', 'l', 'l'] then some (JVal.null, rest.drop 3)
      else none
    else if c.isDigit ∨ c = '-' then parseNum (c :: rest)
    else none

/-- Parse the members of an object after `{` (whitespace already skipped);
`first` is true before any member has been read. -/
def parseFields : Nat → List Char → Bool → Option (List (List Char × JVal) × List Char)
  | 0, _, _ => none
  | fuel+1, s, first =>
    match s with
    | '}' :: r => if first then some ([], r) else none
    | '"' :: rest =>
      match parseStringRest rest with
      | none => none
      | some (key, r1) =>
        match skipWs r1 with
        | ':' :: r2 =>
          match parseVal fuel (skipWs r2) with
          | none => none
          | some (v, r3) =>
            match skipWs r3 with
            | '}' :: r4 => some ([(key, v)], r4)
            | ',' :: r4 =>
              match parseFields fuel (skipWs r4) false with
              | some (fs, r5) => some ((key, v) :: fs, r5)
              | none => none
            | _ => none
        | _ => none
    | _ => none

/-- Parse the elements of an array after `[` (whitespace already
skipped). -/
def parseElems : Nat → List Char → Bool → Option (List JVal × List Char)
  | 0, _, _ => none
  | fuel+1, s, first =>
    match s with
    | ']' :: r => if first then some ([], r) else none
    | _ =>
      match parseVal fuel s with
      | none => none
      | some (v, r1) =>
        match skipWs r1 with
        | ']' :: r2 => some ([v], r2)
        | ',' :: r2 =>
          match parseElems fuel (skipWs r2) false with
          | some (vs, r3) => some (v :: vs, r3)
          | none => none
        | _ => none

end

/-- `json.JSONDecoder().raw_decode` at the head of `s`: the decoded value
and the unconsumed remainder. -/
def rawDecode (s : List Char) : Option (JVal × List Char) :=
  parseVal (2 * s.length + 2) s

/-- The key the scan accepts on. -/
def keyPodcastTranscripts : List Char := "podcast_transcripts".toList

/-- `isinstance(obj, dict) and "podcast_transcripts" in obj` (line 593). -/
def isTarget : JVal → Bool
  | JVal.obj fields => fields.any (fun kv => kv.1 = keyPodcastTranscripts)
  | _ => false

/-- `podscript_json_str.find('{', idx)` (line 600), as a suffix: the input
suffix starting at the next `{`, or `none`. -/
def dropUntilBrace : List Char → Option (List Char)
  | [] => none
  | c :: r => if c = '{' then some (c :: r) else dropUntilBrace r

/-- The scan loop of lines 587-604, on the suffix starting at `idx`:
try `raw_decode`; on success accept a dict containing the key, otherwise
skip past the decoded value; on failure advance one position and jump to
the next `{` (failing if none remains).  `fuel` bounds the iteration count;
each iteration advances `idx` by at least one, so `|input| + 1` iterations
always suffice. -/
def scanFuel : Nat → List Char → Option JVal
  | 0, _ => none
  | _+1, [] => none
  | fuel+1, c :: s1 =>
    match rawDecode (c :: s1) with
    | some (v, r) => if isTarget v then some v else scanFuel fuel r
    | none =>
      match dropUntilBrace s1 with
      | some s2 => scanFuel fuel s2
      | none => none

/-- The whole extraction scan applied to one raw response. -/
def extract_podcast_script (s : List Char) : Option JVal :=
  scanFuel (s.length + 1) s

/-! ## Quality gate (`_is_content_quality_acceptable`, `content_type="script"`,
lines 492-510) and the script retry driver (`_generate_podcast_script`) -/

/-- Python dict lookup on a decoded object: for duplicate keys the JSON
decoder keeps the last occurrence, hence the reversed search. -/
def getKey (v : JVal) (k : List Char) : Option JVal :=
  match v with
  | JVal.obj fields => (fields.reverse.find? (fun kv => kv.1 = k)).map (fun kv => kv.2)
  | _ => none

/-- Python truthiness of a decoded JSON value. -/
def pyFalsy : JVal → Bool
  | JVal.null => true
  | JVal.bool b => !b
  | JVal.num n => n == 0
  | JVal.str s => s.isEmpty
  | JVal.arr xs => xs.isEmpty
  | JVal.obj fs => fs.isEmpty

/-- `"speaker_id"`. -/
def keySpeakerId : List Char := "speaker_id".toList

/-- `"dialog"`. -/
def keyDialog : List Char := "dialog".toList

/-- Python `str.strip()` on decoded characters. -/
def stripWsChars (s : List Char) : List Char :=
  ((s.dropWhile Char.isWhitespace).reverse.dropWhile Char.isWhitespace).reverse

/-- The per-transcript body of the gate loop (lines 502-507).  `Except.error`
models an exception escaping the gate (e.g. `.get` on a non-dict entry),
which the gate does not catch. -/
def gateEntryCheck (entry : JVal) : Except Unit Bool :=
  match entry with
  | JVal.obj fields =>
    if ((fields.find? (fun kv => kv.1 = keySpeakerId)).isNone ∨
        (fields.find? (fun kv => kv.1 = keyDialog)).isNone) then
      Except.ok false
    else
      match getKey entry keyDialog with
      | some (JVal.str d) =>
        if (stripWsChars d).isEmpty then Except.ok false else Except.ok true
      | _ => Except.error ()
  | _ => Except.error ()

/-- The gate loop over the transcripts. -/
def gateEntriesCheck : List JVal → Except Unit Bool
  | [] => Except.ok true
  | e :: rest =>
    match gateEntryCheck e with
    | Except.error u => Except.error u
    | Except.ok false => Except.ok false
    | Except.ok true => gateEntriesCheck rest

/-- `_is_content_quality_acceptable(valid_json_str, "", "", "script")`
applied to the decoded object `v` (the source re-parses `valid_json_str`,
which decodes back to `v`).  The non-array truthy cases model what the
`len`/iteration of the source does there: iterating a string yields
one-character strings, for which the membership test is false (gate returns
`False`); other truthy non-sequences raise. -/
def is_content_quality_acceptable_script (v : JVal) : Except Unit Bool :=
  match getKey v keyPodcastTranscripts with
  | none => Except.ok false
  | some t =>
    if pyFalsy t then Except.ok false
    else
      match t with
      | JVal.arr ts => gateEntriesCheck ts
      | JVal.str _ => Except.ok false
      | _ => Except.error ()

/-- One upstream invocation: the chat-completion call either raises
(transport failure) or returns raw text. -/
inductive UpstreamAttempt where
  | raiseExc : UpstreamAttempt
  | ret (raw : List Char) : UpstreamAttempt

/-- Classified outcome of one attempt of the `while attempt < max_retries`
body of `_generate_podcast_script`. -/
inductive AttemptStep where
  | transport : AttemptStep
  | noObject (raw : List Char) : AttemptStep
  | emptyTranscripts : AttemptStep
  | gateFail : AttemptStep
  | gateExc : AttemptStep
  | success (v : JVal) : AttemptStep

/-- Classify one attempt: upstream exception, else run the scan (lines
586-604), the emptiness check of line 618, and the quality gate of
line 628. -/
def classifyAttempt : UpstreamAttempt → AttemptStep
  | UpstreamAttempt.raiseExc => AttemptStep.transport
  | UpstreamAttempt.ret raw =>
    match extract_podcast_script raw with
    | none => AttemptStep.noObject raw
    | some v =>
      if pyFalsy ((getKey v keyPodcastTranscripts).getD JVal.null) then
        AttemptStep.emptyTranscripts
      else
        match is_content_quality_acceptable_script v with
        | Except.ok true => AttemptStep.success v
        | Except.ok false => AttemptStep.gateFail
        | Except.error _ => AttemptStep.gateExc

/-- The fatal errors `_generate_podcast_script` can raise on exhaustion.
Only the scan failure (line 610) embeds the raw response text. -/
inductive ScriptGenError where
  | noValidScript (raw : List Char) : ScriptGenError
  | emptyTranscriptsErr : ScriptGenError
  | qualityFail : ScriptGenError
  | upstreamFail : ScriptGenError

/-- Trace of a `_generate_podcast_script` run: its result, the number of
upstream invocations (each of which runs the extractor once), and the
`time.sleep(1 * attempt)` delays in seconds, in order. -/
structure ScriptGenTrace where
  result : Except ScriptGenError JVal
  invocations : Nat
  sleeps : List Nat

/-- The retry loop of `_generate_podcast_script`, with remaining attempt
budget `fuel = max_retries - attempt` as the structural argument.  Every
failure increments `attempt` and either raises (budget exhausted) or
retries — with `time.sleep(1 * attempt)` only for exceptions (transport or
gate-escaping), and no delay for the structural failures. -/
def scriptGenGo (att : Nat → UpstreamAttempt) : Nat → Nat → ScriptGenTrace
  | _, 0 => ⟨Except.error ScriptGenError.upstreamFail, 0, []⟩
  | attempt, fuel+1 =>
    match classifyAttempt (att attempt) with
    | AttemptStep.success v => ⟨Except.ok v, 1, []⟩
    | AttemptStep.noObject raw =>
      if fuel = 0 then ⟨Except.error (ScriptGenError.noValidScript raw), 1, []⟩
      else
        let rest := scriptGenGo att (attempt+1) fuel
        ⟨rest.result, rest.invocations + 1, rest.sleeps⟩
    | AttemptStep.emptyTranscripts =>
      if fuel = 0 then ⟨Except.error ScriptGenError.emptyTranscriptsErr, 1, []⟩
      else
        let rest := scriptGenGo att (attempt+1) fuel
        ⟨rest.result, rest.invocations + 1, rest.sleeps⟩
    | AttemptStep.gateFail =>
      if fuel = 0 then ⟨Except.error ScriptGenError.qualityFail, 1, []⟩
      else
        let rest := scriptGenGo att (attempt+1) fuel
        ⟨rest.result, rest.invocations + 1, rest.sleeps⟩
    | AttemptStep.transport =>
      if fuel = 0 then ⟨Except.error ScriptGenError.upstreamFail, 1, []⟩
      else
        let rest := scriptGenGo att (attempt+1) fuel
        ⟨rest.result, rest.invocations + 1, (attempt+1) :: rest.sleeps⟩
    | AttemptStep.gateExc =>
      if fuel = 0 then ⟨Except.error ScriptGenError.upstreamFail, 1, []⟩
      else
        let rest := scriptGenGo att (attempt+1) fuel
        ⟨rest.result, rest.invocations + 1, (attempt+1) :: rest.sleeps⟩

/-- `_generate_podcast_script` with its `max_retries = 3`. -/
def generate_podcast_script_run (att : Nat → UpstreamAttempt) : ScriptGenTrace :=
  scriptGenGo att 0 3

/-- Characters at which `raw_decode` can begin a JSON value; at any other
character it fails immediately. -/
def isValueStartChar (c : Char) : Bool :=
  c = '{' ∨ c = '[' ∨ c = '"' ∨ c = 't' ∨ c = 'f' ∨ c = 'n' ∨ c.isDigit ∨ c = '-'

/-- A raw response that extracts and passes all gates. -/
def goodRaw : List Char :=
  "\x7b\"podcast_transcripts\": [\x7b\"speaker_id\": 0, \"dialog\": \"hi\"\x7d]\x7d".toList

/-- A run whose upstream call raises on the first two attempts and returns
a fully acceptable script on the third. -/
def attTwoTransportThenGood : Nat → UpstreamAttempt :=
  fun n => if n < 2 then UpstreamAttempt.raiseExc else UpstreamAttempt.ret goodRaw

/-! ## Theorems -/

/-- C6: with trimming enabled, clip duration `D` and non-empty silence
interval lists `Ss`/`Es`, the trim-in point is `max 0 (Es[0] − 0.2)` when
`Ss[0] = 0` and `0` otherwise; the trim-out point is
`min D (Ss[last] + 0.2)` when `Es[last] ≥ D − 0.5` and `D` otherwise; a
window of at most 0.01 s falls back to a verbatim copy; and an
undeterminable duration falls back to a verbatim copy. -/
theorem C6_trim_window (D : ℚ) (Ss Es : List ℚ) (hS : Ss ≠ []) (hE : Es ≠ []) :
    (trim_audio_silence true (some D) Ss Es minSilenceDuration =
      (let tin : ℚ := if Ss.headD 0 = 0 then max 0 (Es.headD 0 - 1/5) else 0
       let tout : ℚ := if Es.getLastD 0 ≥ D - 1/2 then min D (Ss.getLastD 0 + 1/5) else D
       if tout - tin ≤ 1/100 then TrimAction.copyVerbatim
       else TrimAction.reencodeWindow tin tout))
    ∧ trim_audio_silence true none Ss Es minSilenceDuration =
        TrimAction.copyVerbatim := by
  constructor
  · simp only [trim_audio_silence, paddingGuard, minSilenceDuration, Bool.not_true,
      Bool.false_eq_true, if_false, ne_eq, hS, not_false_eq_true, hE, and_self, if_true]
  · rfl

/-- Witness for C6: `D = 10`, `Ss = [0, 4]`, `Es = [2, 9.7]` gives the
window `[1.8, 4.2)`. -/
theorem C6_trim_window_witness :
    trim_audio_silence true (some 10) [0, 4] [2, 97/10] minSilenceDuration =
      TrimAction.reencodeWindow (9/5) (21/5) := by
  have h := (C6_trim_window 10 [0, 4] [2, 97/10] (by simp) (by simp)).1
  rw [h]
  norm_num

/-- C9: with trimming disabled, the trim step copies the source verbatim —
the output holds the input's bytes unchanged, with no re-encode — for every
input file and every detected-silence configuration. -/
theorem C9_disabled_is_verbatim_copy (bytes : List Nat) (duration : Option ℚ)
    (Ss Es : List ℚ) (minSilence : ℚ) :
    applyTrim (trim_audio_silence false duration Ss Es minSilence) bytes =
      AudioData.raw bytes := by
  rfl

/-- C10: when no roster entry carries a non-empty `owner`, the selected
backend name is the constant `"edge-tts"` for every configuration path (so
it is not derived from the file's basename); when at least one entry names
an owner, it is the comma-joined list of the distinct owners. -/
theorem C10_backend_name (configPath : String) (podUsers : List PodUser) :
    ((∀ u ∈ podUsers, u.owner = "") →
      load_configuration_path_provider configPath podUsers = "edge-tts")
    ∧ ((∃ u ∈ podUsers, u.owner ≠ "") →
      load_configuration_path_provider configPath podUsers =
        String.intercalate "," (distinctOwners podUsers)) := by
  constructor
  · intro h
    have hnil : distinctOwners podUsers = [] := by
      unfold distinctOwners
      rw [List.dedup_eq_nil, List.filterMap_eq_nil_iff]
      intro u hu
      simp [h u hu]
    simp [load_configuration_path_provider, hnil]
  · intro ⟨u, hu, hne⟩
    have hmem : u.owner ∈ podUsers.filterMap
        (fun v => if v.owner ≠ "" then some v.owner else none) := by
      rw [List.mem_filterMap]
      exact ⟨u, hu, by simp [hne]⟩
    have hnnil : distinctOwners podUsers ≠ [] := by
      unfold distinctOwners
      intro hcon
      rw [List.dedup_eq_nil] at hcon
      rw [hcon] at hmem
      exact List.not_mem_nil _ hmem
    simp [load_configuration_path_provider, hnnil]

/-- Witness for C10: an ownerless roster selects `"edge-tts"` even for a
config file named `doubao-tts.json`; a two-owner roster selects the joined
owners. -/
theorem C10_backend_name_witness :
    load_configuration_path_provider "../config/doubao-tts.json"
      [⟨"v0", "", ""⟩, ⟨"v1", "", ""⟩] = "edge-tts"
    ∧ load_configuration_path_provider "x.json"
      [⟨"v0", "fish-audio", ""⟩, ⟨"v1", "minimax", ""⟩] =
        String.intercalate "," (distinctOwners
          [⟨"v0", "fish-audio", ""⟩, ⟨"v1", "minimax", ""⟩]) := by
  constructor
  · exact (C10_backend_name "../config/doubao-tts.json" _).1 (by decide)
  · exact (C10_backend_name "x.json" _).2 ⟨⟨"v0", "fish-audio", ""⟩, by simp, by simp⟩

theorem pathExists_false_iff (fs : FileSys) (p : String) :
    fs.pathExists p = false ↔ ∀ f ∈ fs.files, ¬ f.1 = p := by
  simp [FileSys.pathExists, List.any_eq_false]

theorem pathExists_remove_self (fs : FileSys) (p : String) :
    (fs.remove p).pathExists p = false := by
  rw [pathExists_false_iff]
  intro f hf
  unfold FileSys.remove at hf
  rw [List.mem_filter] at hf
  simpa using hf.2

theorem pathExists_remove_of_false {fs : FileSys} {q : String} (p : String)
    (h : fs.pathExists q = false) : (fs.remove p).pathExists q = false := by
  rw [pathExists_false_iff] at h ⊢
  intro f hf
  unfold FileSys.remove at hf
  exact h f (List.mem_of_mem_filter hf)

theorem removeListed_pathExists_of_false {q : String} :
    ∀ (lines : List String) (fs : FileSys), fs.pathExists q = false →
    (removeListed fs lines).pathExists q = false := by
  intro lines
  induction lines with
  | nil => intro fs h; exact h
  | cons line rest ih =>
    intro fs h
    cases hp : parseFileLine line with
    | some name =>
      simp only [removeListed, hp]
      exact ih _ (pathExists_remove_of_false _ h)
    | none =>
      simp only [removeListed, hp]
      exact ih _ h

theorem removeListed_removes {line name : String} :
    ∀ (lines : List String) (fs : FileSys), line ∈ lines →
    parseFileLine line = some name →
    (removeListed fs lines).pathExists (pathJoin outputDir name) = false := by
  intro lines
  induction lines with
  | nil => intro fs h; exact absurd h (List.not_mem_nil _)
  | cons hd rest ih =>
    intro fs hmem hname
    rcases List.mem_cons.1 hmem with heq | hrest
    · subst heq
      simp only [removeListed, hname]
      exact removeListed_pathExists_of_false rest _ (pathExists_remove_self _ _)
    · cases hp : parseFileLine hd with
      | some n =>
        simp only [removeListed, hp]
        exact ih _ hrest hname
      | none =>
        simp only [removeListed, hp]
        exact ih _ hrest hname

theorem mergeCleanup_spec (fs : FileSys) (flp wav : String) (lines : List String)
    (hread : fs.read flp = some lines) :
    (∀ line ∈ lines, ∀ name, parseFileLine line = some name →
      (mergeCleanup fs flp wav).pathExists (pathJoin outputDir name) = false)
    ∧ (mergeCleanup fs flp wav).pathExists flp = false
    ∧ (mergeCleanup fs flp wav).pathExists wav = false := by
  unfold mergeCleanup
  rw [hread]
  refine ⟨?_, ?_, ?_⟩
  · intro line hline name hname
    exact pathExists_remove_of_false _ (pathExists_remove_of_false _
      (removeListed_removes lines fs hline hname))
  · exact pathExists_remove_of_false _ (pathExists_remove_self _ _)
  · exact pathExists_remove_self _ _

theorem find?_filter_ne {p q : String} (h : p ≠ q) :
    ∀ l : List (String × List String),
      (l.filter (fun f => ¬ f.1 = q)).find? (fun f => f.1 = p) =
        l.find? (fun f => f.1 = p) := by
  intro l
  induction l with
  | nil => rfl
  | cons hd tl ih =>
    rw [List.filter_cons]
    by_cases hq : hd.1 = q
    · have e1 : (decide ¬ hd.1 = q) = false := by simp [hq]
      rw [e1]
      have e2 : decide (hd.1 = p) = false := by
        simp only [decide_eq_false_iff_not]
        intro hc
        exact h (hc.symm.trans hq)
      simp only [Bool.false_eq_true, if_false]
      rw [ih, List.find?_cons, e2]
    · have e1 : (decide ¬ hd.1 = q) = true := by simp [hq]
      rw [e1]
      simp only [if_true]
      rw [List.find?_cons, List.find?_cons]
      cases hfp : decide (hd.1 = p) with
      | true => rfl
      | false => exact ih

theorem read_remove_ne {fs : FileSys} {p q : String} (h : p ≠ q) :
    (fs.remove q).read p = fs.read p := by
  unfold FileSys.remove FileSys.read
  rw [find?_filter_ne h]

theorem read_write_ne {fs : FileSys} {p q : String} {c : List String} (h : p ≠ q) :
    (fs.write q c).read p = fs.read p := by
  unfold FileSys.write FileSys.read
  rw [List.find?_append]
  have h2 : List.find? (fun f => decide (f.1 = p)) [(q, c)] = none := by
    rw [List.find?_cons]
    have hqp : decide ((q, c).1 = p) = false := by
      simp only [decide_eq_false_iff_not]
      exact fun hc => h hc.symm
    rw [hqp]
    rfl
  rw [h2]
  have horelse : ∀ o : Option (String × List String), o.or none = o := by
    intro o; cases o <;> rfl
  rw [horelse]
  have h3 := @read_remove_ne fs p q h
  unfold FileSys.read FileSys.remove at h3
  exact h3

/-- C7: whatever the outcomes of the external concatenation and re-encoding
steps, after `merge_audio_files` every clip named by a `file ` line of the
manifest is deleted, the manifest itself is deleted, and the intermediate
WAV file is deleted. -/
theorem C7_cleanup_always (fs : FileSys) (fileListPath stem : String)
    (wavContent mp3Content : List String) (concatOk mp3Ok : Bool)
    (manifestLines : List String)
    (hread : fs.read fileListPath = some manifestLines)
    (hwav : fileListPath ≠ pathJoin outputDir (stem ++ ".wav"))
    (hmp3 : fileListPath ≠ pathJoin outputDir (stem ++ ".mp3")) :
    (∀ line ∈ manifestLines, ∀ name, parseFileLine line = some name →
      (merge_audio_files fs fileListPath stem wavContent mp3Content
        concatOk mp3Ok).fs.pathExists (pathJoin outputDir name) = false)
    ∧ (merge_audio_files fs fileListPath stem wavContent mp3Content
        concatOk mp3Ok).fs.pathExists fileListPath = false
    ∧ (merge_audio_files fs fileListPath stem wavContent mp3Content
        concatOk mp3Ok).fs.pathExists (pathJoin outputDir (stem ++ ".wav")) = false := by
  unfold merge_audio_files
  cases concatOk with
  | false =>
    simp only [if_false, Bool.false_eq_true]
    exact mergeCleanup_spec fs _ _ manifestLines hread
  | true =>
    cases mp3Ok with
    | false =>
      simp only [if_true, if_false, Bool.false_eq_true]
      exact mergeCleanup_spec _ _ _ manifestLines (by rw [read_write_ne hwav]; exact hread)
    | true =>
      simp only [if_true]
      exact mergeCleanup_spec _ _ _ manifestLines
        (by rw [read_write_ne hmp3, read_write_ne hwav]; exact hread)

/-- Witness for C7: a file system holding a two-clip manifest, both clips
and an unrelated file; after a successful merge only the unrelated file and
the final MP3 remain. -/
theorem C7_cleanup_always_witness :
    ((merge_audio_files
        ⟨[("output/file_list_u.txt", ["file \x27trimmed_a.mp3\x27", "file \x27trimmed_b.mp3\x27"]),
          ("output/trimmed_a.mp3", []), ("output/trimmed_b.mp3", [])]⟩
        "output/file_list_u.txt" "stem" [] [] true true).fs.pathExists
      "output/trimmed_a.mp3" = false)
    ∧ ((merge_audio_files
        ⟨[("output/file_list_u.txt", ["file \x27trimmed_a.mp3\x27", "file \x27trimmed_b.mp3\x27"]),
          ("output/trimmed_a.mp3", []), ("output/trimmed_b.mp3", [])]⟩
        "output/file_list_u.txt" "stem" [] [] true true).fs.pathExists
      "output/file_list_u.txt" = false) := by
  have h := C7_cleanup_always
    ⟨[("output/file_list_u.txt", ["file \x27trimmed_a.mp3\x27", "file \x27trimmed_b.mp3\x27"]),
      ("output/trimmed_a.mp3", []), ("output/trimmed_b.mp3", [])]⟩
    "output/file_list_u.txt" "stem" [] [] true true
    ["file \x27trimmed_a.mp3\x27", "file \x27trimmed_b.mp3\x27"]
    (by rfl) (by decide) (by decide)
  refine ⟨?_, h.2.1⟩
  have := h.1 "file \x27trimmed_a.mp3\x27" (by simp) "trimmed_a.mp3" (by decide)
  simpa [pathJoin, outputDir] using this

theorem retryLoopGo_calls_le (behavior : Nat → CallOutcome) :
    ∀ (fuel a : Nat), (retryLoopGo behavior a fuel).calls ≤ fuel := by
  intro fuel
  induction fuel with
  | zero => intro a; simp [retryLoopGo]
  | succ f ih =>
    intro a
    cases f with
    | zero =>
      cases hb : behavior a <;> simp [retryLoopGo, hb]
    | succ f' =>
      cases hb : behavior a <;> simp only [retryLoopGo, hb]
      · omega
      · have := ih (a + 1)
        omega
      · omega

theorem retryLoopGo_calls_pos (behavior : Nat → CallOutcome) :
    ∀ (fuel a : Nat), 1 ≤ fuel → 1 ≤ (retryLoopGo behavior a fuel).calls := by
  intro fuel a hf
  cases fuel with
  | zero => omega
  | succ f =>
    cases f with
    | zero => cases hb : behavior a <;> simp [retryLoopGo, hb]
    | succ f' => cases hb : behavior a <;> simp [retryLoopGo, hb]

theorem retryLoopGo_waits (behavior : Nat → CallOutcome) :
    ∀ (fuel a : Nat), (retryLoopGo behavior a fuel).waits =
      (List.range ((retryLoopGo behavior a fuel).calls - 1)).map
        (fun i => 2 ^ (a + i)) := by
  intro fuel
  induction fuel with
  | zero => intro a; simp [retryLoopGo]
  | succ f ih =>
    intro a
    cases f with
    | zero =>
      cases hb : behavior a <;> simp [retryLoopGo, hb]
    | succ f' =>
      cases hb : behavior a <;> simp only [retryLoopGo, hb] <;> try simp
      obtain ⟨m, hm⟩ : ∃ m, (retryLoopGo behavior (a + 1) (f' + 1)).calls = m + 1 :=
        ⟨(retryLoopGo behavior (a + 1) (f' + 1)).calls - 1, by
          have := retryLoopGo_calls_pos behavior (f' + 1) (a + 1) (by omega)
          omega⟩
      have hw := ih (a + 1)
      rw [hm] at hw
      simp only [hm, Nat.add_sub_cancel]
      rw [hw, List.range_succ_eq_map]
      simp only [List.map_cons, List.map_map, Nat.add_sub_cancel, Nat.add_zero]
      congr 1
      apply List.map_congr_left
      intro i hi
      simp only [Function.comp_apply, Nat.succ_eq_add_one]
      ring_nf

/-- C4 (amended): for every backend behaviour, the retry loop makes at most
`max_retries` backend calls — 3 under the default limit, which the
`tts_max_retries` configuration key can override — and waits `2^attempt`
seconds between consecutive attempts; a non-backend (unexpected) failure
after `k` transient failures stops the loop at `k+1` calls without
retrying it; and a backend that fails transiently twice then succeeds
yields success with exactly 3 calls under the default limit. -/
theorem C4_synthesis_retry (behavior : Nat → CallOutcome) :
    (∀ m, (generate_audio_retry behavior m).calls ≤ m)
    ∧ ((generate_audio_retry behavior 3).calls ≤ 3)
    ∧ ((generate_audio_retry behavior 3).waits =
        (List.range ((generate_audio_retry behavior 3).calls - 1)).map
          (fun i => 2 ^ i))
    ∧ (∀ k, k < 3 → (∀ i, i < k → behavior i = CallOutcome.transient) →
        behavior k = CallOutcome.unexpected →
        (generate_audio_retry behavior 3).result = RetryResult.unexpectedFailure ∧
        (generate_audio_retry behavior 3).calls = k + 1)
    ∧ (∀ p, behavior 0 = CallOutcome.transient →
        behavior 1 = CallOutcome.transient →
        behavior 2 = CallOutcome.success p →
        (generate_audio_retry behavior 3).result = RetryResult.ok p ∧
        (generate_audio_retry behavior 3).calls = 3) := by
  refine ⟨fun m => retryLoopGo_calls_le behavior m 0,
    retryLoopGo_calls_le behavior 3 0, ?_, ?_, ?_⟩
  · have := retryLoopGo_waits behavior 3 0
    simpa using this
  · intro k hk hpre hu
    unfold generate_audio_retry
    interval_cases k
    · simp [retryLoopGo, hu]
    · have h0 := hpre 0 (by omega)
      simp [retryLoopGo, h0, hu]
    · have h0 := hpre 0 (by omega)
      have h1 := hpre 1 (by omega)
      simp [retryLoopGo, h0, h1, hu]
  · intro p h0 h1 h2
    unfold generate_audio_retry
    simp [retryLoopGo, h0, h1, h2]

/-- Witness for C4: transient, transient, success gives 3 calls, waits of
1 s and 2 s, and the successful path. -/
theorem C4_synthesis_retry_witness :
    (generate_audio_retry
      (fun n => if n < 2 then CallOutcome.transient
                else CallOutcome.success "clip.mp3") 3).result =
        RetryResult.ok "clip.mp3"
    ∧ (generate_audio_retry
      (fun n => if n < 2 then CallOutcome.transient
                else CallOutcome.success "clip.mp3") 3).calls = 3
    ∧ (generate_audio_retry
      (fun n => if n < 2 then CallOutcome.transient
                else CallOutcome.success "clip.mp3") 3).waits = [1, 2] := by
  have h := C4_synthesis_retry
    (fun n => if n < 2 then CallOutcome.transient
              else CallOutcome.success "clip.mp3")
  have h4 := h.2.2.2.2 "clip.mp3" rfl rfl rfl
  refine ⟨h4.1, h4.2, ?_⟩
  rw [h.2.2.1, h4.2]
  rfl

/-- Counterexample for C4 as stated: the attempt limit is not the constant
3 but the configured `tts_max_retries` (default 3): with the key set to 4,
an always-transient backend is called 4 times. -/
theorem C4_counterexample :
    (generate_audio_retry (fun _ => CallOutcome.transient)
      (ttsMaxRetries (some 4))).calls = 4
    ∧ ¬ ((generate_audio_retry (fun _ => CallOutcome.transient)
      (ttsMaxRetries (some 4))).calls ≤ 3) := by
  constructor
  · rfl
  · intro hcon
    rw [show (generate_audio_retry (fun _ => CallOutcome.transient)
      (ttsMaxRetries (some 4))).calls = 4 from rfl] at hcon
    omega

theorem speakerInfoEntries_error (voices : List Voice) :
    ∀ (podUsers : List PodUser) (startId : Nat),
      (∃ u ∈ podUsers, foundName voices u.code = "") →
      ∃ e, speakerInfoEntries voices podUsers startId = Except.error e := by
  intro podUsers
  induction podUsers with
  | nil =>
    intro startId h
    obtain ⟨u, hu, _⟩ := h
    exact absurd hu (List.not_mem_nil u)
  | cons hd rest ih =>
    intro startId h
    by_cases hhd : foundName voices hd.code = ""
    · refine ⟨"语音code \x27" ++ hd.code ++ "\x27 (speaker_id=" ++
        toString startId ++
        ") 未找到对应名称或alias。请检查 config/edge-tts.json 中的 voices 配置。", ?_⟩
      simp [speakerInfoEntries, hhd]
    · obtain ⟨u, hu, hcode⟩ := h
      rcases List.mem_cons.1 hu with heq | hrest
      · exact absurd (heq ▸ hcode) hhd
      · obtain ⟨e, he⟩ := ih (startId + 1) ⟨u, hrest, hcode⟩
        refine ⟨e, ?_⟩
        simp only [speakerInfoEntries, hhd, ne_eq, not_false_eq_true, if_true, he]
        rfl

/-- C3 (amended): when some ROSTER ENTRY's voice code has no non-empty
display name in the catalog, resolution fails fatally before any synthesis
work starts and zero backend calls are made.  (An utterance whose
`speaker_id` falls outside the roster instead fails inside its own
synthesis task — see the counterexample.) -/
theorem C3_resolution_before_synthesis (podUsers : List PodUser)
    (voices : List Voice) (items : List Transcript) (adapters : List String)
    (behaviors : Nat → Nat → CallOutcome) (maxRetries : Nat)
    (h : ∃ u ∈ podUsers, foundName voices u.code = "") :
    (runResolutionPipeline podUsers voices items adapters behaviors
        maxRetries).2 = 0
    ∧ ∃ e, (runResolutionPipeline podUsers voices items adapters behaviors
        maxRetries).1 = Except.error e := by
  obtain ⟨e, he⟩ := speakerInfoEntries_error voices podUsers 0 h
  have hg : generate_speaker_id_text podUsers voices = Except.error e := by
    unfold generate_speaker_id_text
    rw [he]
    rfl
  unfold runResolutionPipeline
  rw [hg]
  exact ⟨rfl, e, rfl⟩

/-- Witness for C3: a roster naming a voice code absent from the catalog
fails with zero backend calls. -/
theorem C3_resolution_before_synthesis_witness :
    (runResolutionPipeline [⟨"vX", "edge-tts", ""⟩]
        [⟨"v0", "", "", "Alice", 0, 0⟩] [⟨0, "hi"⟩] ["edge-tts"]
        (fun _ _ => CallOutcome.success "c.mp3") 3).2 = 0
    ∧ ∃ e, (runResolutionPipeline [⟨"vX", "edge-tts", ""⟩]
        [⟨"v0", "", "", "Alice", 0, 0⟩] [⟨0, "hi"⟩] ["edge-tts"]
        (fun _ _ => CallOutcome.success "c.mp3") 3).1 = Except.error e :=
  C3_resolution_before_synthesis [⟨"vX", "edge-tts", ""⟩]
    [⟨"v0", "", "", "Alice", 0, 0⟩] [⟨0, "hi"⟩] ["edge-tts"]
    (fun _ _ => CallOutcome.success "c.mp3") 3
    ⟨⟨"vX", "edge-tts", ""⟩, by simp, by rfl⟩

/-- Counterexample for C3 as stated: with a one-entry roster that resolves
fine and a script whose second utterance has the out-of-range
`speaker_id = 1`, that utterance does not resolve to any voice code, yet
the run makes 1 backend call (for utterance 0) before failing — not the
zero calls the claim asserts for every unresolvable utterance. -/
theorem C3_counterexample :
    (¬ utteranceResolves [⟨"v0", "edge-tts", ""⟩]
        [⟨"v0", "", "", "Alice", 0, 0⟩] ⟨1, "yo"⟩)
    ∧ ((⟨1, "yo"⟩ : Transcript) ∈ ([⟨0, "hi"⟩, ⟨1, "yo"⟩] : List Transcript))
    ∧ (runResolutionPipeline [⟨"v0", "edge-tts", ""⟩]
        [⟨"v0", "", "", "Alice", 0, 0⟩] [⟨0, "hi"⟩, ⟨1, "yo"⟩] ["edge-tts"]
        (fun _ _ => CallOutcome.success "c.mp3") 3).2 = 1
    ∧ (∃ e, (runResolutionPipeline [⟨"v0", "edge-tts", ""⟩]
        [⟨"v0", "", "", "Alice", 0, 0⟩] [⟨0, "hi"⟩, ⟨1, "yo"⟩] ["edge-tts"]
        (fun _ _ => CallOutcome.success "c.mp3") 3).1 = Except.error e)
    ∧ (1 : Nat) ≠ 0 := by
  refine ⟨?_, by simp, by rfl, ⟨_, by rfl⟩, by omega⟩
  rintro ⟨u, ⟨_, hlt⟩, _⟩
  revert hlt
  decide

theorem consumeResults_all_ok (outcome : Nat → TaskOutcome) (paths : Nat → String) :
    ∀ (order : List Nat),
      (∀ i ∈ order, outcome i = TaskOutcome.ok (paths i) ∧ paths i ≠ "") →
      ∀ dict, consumeResults outcome order dict =
        Sum.inl (dict ++ order.map (fun i => (i, trimmedPath (paths i)))) := by
  intro order
  induction order with
  | nil => intro _ dict; simp [consumeResults]
  | cons i rest ih =>
    intro h dict
    have hi := h i (List.mem_cons_self i rest)
    simp only [consumeResults, hi.1]
    rw [if_pos hi.2]
    rw [ih (fun j hj => h j (List.mem_cons_of_mem _ hj)) _]
    simp

theorem find?_map_key (f : Nat → String) :
    ∀ (l : List Nat), ∀ k ∈ l,
      (l.map (fun i => (i, f i))).find? (fun kv => kv.1 = k) = some (k, f k) := by
  intro l
  induction l with
  | nil => intro k hk; exact absurd hk (List.not_mem_nil k)
  | cons a rest ih =>
    intro k hk
    rw [List.map_cons, List.find?_cons]
    by_cases hak : a = k
    · subst hak; simp
    · have hd : (decide ((a, f a).1 = k)) = false := by simp [hak]
      rw [hd]
      have hkrest : k ∈ rest := by
        rcases List.mem_cons.1 hk with heq | hmem
        · exact absurd heq.symm hak
        · exact hmem
      exact ih k hkrest

theorem insertionSort_eq_range {order : List Nat} {N : Nat}
    (h : order.Perm (List.range N)) :
    List.insertionSort (· ≤ ·) order = List.range N :=
  List.eq_of_perm_of_sorted ((List.perm_insertionSort _ order).trans h)
    (List.sorted_insertionSort _ order) (List.sorted_le_range N)

/-- C1 (amended): when every synthesis-and-trim task succeeds with a
non-empty clip path, the orchestrator collects exactly the `N` clips and
returns them — and the ffmpeg file list names them — in ascending
utterance-index order, whatever order the workers complete in; a non-empty
collection whose count differs from `N` makes file-list creation fail with
the count-mismatch error.  (An empty collection fails with the distinct
no-files error — see the counterexample.) -/
theorem C1_ordered_collection (N : Nat) (hN : 0 < N) (paths : Nat → String)
    (order : List Nat) (outcome : Nat → TaskOutcome)
    (hperm : order.Perm (List.range N))
    (hout : ∀ i ∈ order, outcome i = TaskOutcome.ok (paths i) ∧ paths i ≠ "") :
    (generate_all_audio_files outcome order =
      Except.ok ((List.range N).map (fun i => trimmedPath (paths i))))
    ∧ (runGeneration outcome order N =
        Except.ok ((List.range N).map
          (fun i => "file \x27" ++ basename (trimmedPath (paths i)) ++ "\x27")))
    ∧ (∀ files : List String, files ≠ [] → files.length ≠ N →
        create_ffmpeg_file_list files N =
          Except.error (mismatchMsg N files.length)) := by
  have hconsume := consumeResults_all_ok outcome paths order hout []
  have hmain : generate_all_audio_files outcome order =
      Except.ok ((List.range N).map (fun i => trimmedPath (paths i))) := by
    unfold generate_all_audio_files
    rw [hconsume]
    simp only [List.nil_append]
    have hkeys : ∀ l : List Nat, ((l.map (fun i => (i, trimmedPath (paths i)))).map
        (fun kv => kv.1)) = l := by
      intro l
      induction l with
      | nil => rfl
      | cons a t iht => simp only [List.map_cons, iht]
    rw [hkeys order, insertionSort_eq_range hperm]
    congr 1
    apply List.map_congr_left
    intro k hk
    have hkord : k ∈ order := hperm.mem_iff.2 hk
    rw [find?_map_key (fun i => trimmedPath (paths i)) order k hkord]
    rfl
  have hfiles_ne : ((List.range N).map (fun i => trimmedPath (paths i))) ≠ [] := by
    simp only [ne_eq, List.map_eq_nil_iff, List.range_eq_nil]
    omega
  refine ⟨hmain, ?_, ?_⟩
  · unfold runGeneration
    rw [hmain]
    show create_ffmpeg_file_list
      ((List.range N).map (fun i => trimmedPath (paths i))) N = _
    unfold create_ffmpeg_file_list
    rw [if_neg hfiles_ne,
      if_neg (by simp :
        ¬((List.range N).map (fun i => trimmedPath (paths i))).length ≠ N),
      List.map_map]
    rfl
  · intro files hne hlen
    unfold create_ffmpeg_file_list
    rw [if_neg hne, if_pos hlen]

/-- Witness for C1: two tasks completing in reverse order still yield
clips and manifest lines in index order. -/
theorem C1_ordered_collection_witness :
    generate_all_audio_files
      (fun i => TaskOutcome.ok ("c" ++ toString i ++ ".mp3")) [1, 0] =
      Except.ok ["output/trimmed_c0.mp3", "output/trimmed_c1.mp3"]
    ∧ runGeneration
      (fun i => TaskOutcome.ok ("c" ++ toString i ++ ".mp3")) [1, 0] 2 =
      Except.ok ["file \x27trimmed_c0.mp3\x27", "file \x27trimmed_c1.mp3\x27"] := by
  have hperm : ([1, 0] : List Nat).Perm (List.range 2) := by
    have hr : List.range 2 = [0, 1] := rfl
    rw [hr]
    exact List.Perm.swap 0 1 []
  have h := C1_ordered_collection 2 (by omega)
    (fun i => "c" ++ toString i ++ ".mp3") [1, 0]
    (fun i => TaskOutcome.ok ("c" ++ toString i ++ ".mp3")) hperm
    (by
      intro i hi
      refine ⟨rfl, ?_⟩
      fin_cases hi <;> decide)
  exact ⟨by rw [h.1]; rfl, by rw [h.2.1]; rfl⟩

/-- Counterexample for C1 as stated: an empty collection with expected
count 2 differs from `N` but fails with the no-files `ValueError`, not the
count-mismatch `RuntimeError` the claim names. -/
theorem C1_counterexample :
    create_ffmpeg_file_list [] 2 = Except.error noFilesMsg
    ∧ noFilesMsg ≠ mismatchMsg 2 0 :=
  ⟨rfl, by decide⟩

theorem consumeResults_first_err (outcome : Nat → TaskOutcome) (j : Nat)
    (m : String) (post : List Nat) :
    ∀ (pre : List Nat), (∀ i ∈ pre, ∃ p, outcome i = TaskOutcome.ok p) →
      outcome j = TaskOutcome.err m →
      ∀ dict, ∃ dict', consumeResults outcome (pre ++ j :: post) dict =
        Sum.inr (itemErrorMsg j m, post, dict') := by
  intro pre
  induction pre with
  | nil =>
    intro _ hj dict
    refine ⟨dict, ?_⟩
    simp [consumeResults, hj]
  | cons a rest ih =>
    intro hpre hj dict
    obtain ⟨p, hp⟩ := hpre a (List.mem_cons_self a rest)
    simp only [List.cons_append, consumeResults, hp]
    exact ih (fun i hi => hpre i (List.mem_cons_of_mem _ hi)) hj _

/-- C2: the first task failure (in completion order, after its own retries)
stops result consumption, gets every not-yet-consumed task cancelled,
raises the single wrapped error naming the failing utterance's index, and
the run yields no output (manifest creation and merging are never
reached). -/
theorem C2_first_failure_aborts (outcome : Nat → TaskOutcome)
    (pre post : List Nat) (j : Nat) (m : String) (N : Nat)
    (hpre : ∀ i ∈ pre, ∃ p, outcome i = TaskOutcome.ok p)
    (hj : outcome j = TaskOutcome.err m) :
    generate_all_audio_files outcome (pre ++ j :: post) =
      Except.error (itemErrorMsg j m)
    ∧ cancelledTasks outcome (pre ++ j :: post) = post
    ∧ runGeneration outcome (pre ++ j :: post) N =
        Except.error (itemErrorMsg j m) := by
  obtain ⟨dict', hd⟩ := consumeResults_first_err outcome j m post pre hpre hj []
  refine ⟨?_, ?_, ?_⟩
  · unfold generate_all_audio_files
    rw [hd]
  · unfold cancelledTasks
    rw [hd]
  · unfold runGeneration generate_all_audio_files
    rw [hd]

/-- Witness for C2: task 1 fails after task 0 succeeded; the error names
item 1 and task 2 is cancelled. -/
theorem C2_first_failure_aborts_witness :
    generate_all_audio_files
      (fun i => if i = 1 then TaskOutcome.err "boom"
                else TaskOutcome.ok ("c" ++ toString i ++ ".mp3")) [0, 1, 2] =
      Except.error "Error generating or trimming audio for item 1: boom"
    ∧ cancelledTasks
      (fun i => if i = 1 then TaskOutcome.err "boom"
                else TaskOutcome.ok ("c" ++ toString i ++ ".mp3")) [0, 1, 2] = [2]
    ∧ runGeneration
      (fun i => if i = 1 then TaskOutcome.err "boom"
                else TaskOutcome.ok ("c" ++ toString i ++ ".mp3")) [0, 1, 2] 3 =
      Except.error "Error generating or trimming audio for item 1: boom" := by
  have h := C2_first_failure_aborts
    (fun i => if i = 1 then TaskOutcome.err "boom"
              else TaskOutcome.ok ("c" ++ toString i ++ ".mp3"))
    [0] [2] 1 "boom" 3
    (by
      intro i hi
      fin_cases hi
      exact ⟨"c" ++ toString 0 ++ ".mp3", rfl⟩)
    rfl
  exact ⟨h.1, h.2.1, h.2.2⟩

theorem rawDecode_none_of_not_start {c : Char} {s : List Char}
    (h : isValueStartChar c = false) : rawDecode (c :: s) = none := by
  have h' : ¬ (c = '{' ∨ c = '[' ∨ c = '"' ∨ c = 't' ∨ c = 'f' ∨ c = 'n' ∨
      c.isDigit = true ∨ c = '-') := by
    intro hor
    rw [show isValueStartChar c =
      decide (c = '{' ∨ c = '[' ∨ c = '"' ∨ c = 't' ∨ c = 'f' ∨ c = 'n' ∨
        c.isDigit = true ∨ c = '-') from rfl] at h
    rw [decide_eq_false_iff_not] at h
    exact h hor
  push_neg at h'
  obtain ⟨h1, h2, h3, h4, h5, h6, h7, h8⟩ := h'
  unfold rawDecode
  obtain ⟨f, hf⟩ : ∃ f, 2 * (c :: s).length + 2 = f + 1 :=
    ⟨2 * (c :: s).length + 1, by omega⟩
  rw [hf]
  simp only [parseVal]
  rw [if_neg h1, if_neg h2, if_neg h3, if_neg h4, if_neg h5, if_neg h6,
    if_neg (by simp [h7, h8])]

theorem dropUntilBrace_append_notMem :
    ∀ {a : List Char}, '{' ∉ a → ∀ b, dropUntilBrace (a ++ b) = dropUntilBrace b := by
  intro a
  induction a with
  | nil => intro _ b; rfl
  | cons c t ih =>
    intro h b
    have hc : ¬ (c = '{') := fun hceq => h (List.mem_cons.2 (Or.inl hceq.symm))
    simp only [List.cons_append, dropUntilBrace]
    rw [if_neg hc]
    exact ih (fun hm => h (List.mem_cons_of_mem _ hm)) b

theorem dropUntilBrace_brace (t : List Char) :
    dropUntilBrace ('{' :: t) = some ('{' :: t) := by
  simp [dropUntilBrace]

theorem dropUntilBrace_none_of_notMem :
    ∀ {a : List Char}, '{' ∉ a → dropUntilBrace a = none := by
  intro a
  induction a with
  | nil => intro _; rfl
  | cons c t ih =>
    intro h
    have hc : ¬ (c = '{') := fun hceq => h (List.mem_cons.2 (Or.inl hceq.symm))
    simp only [dropUntilBrace]
    rw [if_neg hc]
    exact ih (fun hm => h (List.mem_cons_of_mem _ hm))

theorem scanFuel_two_step (f : Nat) (s r rest2 : List Char) (vSkip vTgt : JVal)
    (hs : s ≠ []) (hr : r ≠ [])
    (hd1 : rawDecode s = some (vSkip, r)) (ht1 : isTarget vSkip = false)
    (hd2 : rawDecode r = some (vTgt, rest2)) (ht2 : isTarget vTgt = true) :
    scanFuel (f + 2) s = some vTgt := by
  obtain ⟨c, s1, rfl⟩ : ∃ c s1, s = c :: s1 := by
    cases s with
    | nil => exact absurd rfl hs
    | cons c s1 => exact ⟨c, s1, rfl⟩
  obtain ⟨c2, r1, rfl⟩ : ∃ c2 r1, r = c2 :: r1 := by
    cases r with
    | nil => exact absurd rfl hr
    | cons c2 r1 => exact ⟨c2, r1, rfl⟩
  have h1 : scanFuel (f + 1 + 1) (c :: s1) = scanFuel (f + 1) (c2 :: r1) := by
    simp only [scanFuel, hd1, ht1, Bool.false_eq_true, if_false]
  rw [show f + 2 = f + 1 + 1 from rfl, h1]
  simp only [scanFuel, hd2, ht2, if_true]

/-- C5: the extraction scan decodes a JSON value at each candidate
position, accepts the first decoded top-level object carrying the
`podcast_transcripts` key (skipping past the end of a decodable object
lacking it), jumps to the next `{` when decoding fails, and fails when no
such object remains — so the accepted structure is the embedded object,
independent of leading undecodable prose and trailing text. -/
theorem C5_extraction_scan (p j1 j q : List Char) (vSkip vTgt : JVal)
    (c0 : Char) (p' : List Char) (hp : p = c0 :: p')
    (hc0 : isValueStartChar c0 = false)
    (hpb : '{' ∉ p)
    (t1 : List Char) (hj1 : j1 = '{' :: t1)
    (hd1 : rawDecode (j1 ++ j ++ q) = some (vSkip, j ++ q))
    (ht1 : isTarget vSkip = false)
    (hjne : j ≠ [])
    (hd2 : rawDecode (j ++ q) = some (vTgt, q))
    (ht2 : isTarget vTgt = true) :
    extract_podcast_script (p ++ j1 ++ j ++ q) = some vTgt
    ∧ extract_podcast_script (j1 ++ j ++ q) = some vTgt
    ∧ (∀ s : List Char, s ≠ [] →
        (∀ ch, s.head? = some ch → isValueStartChar ch = false) →
        '{' ∉ s → extract_podcast_script s = none) := by
  subst hp
  subst hj1
  have hj1ne : ('{' :: t1) ++ j ++ q ≠ [] := by simp
  have hjqne : j ++ q ≠ [] := by
    intro hcon
    exact hjne (List.append_eq_nil.1 hcon).1
  refine ⟨?_, ?_, ?_⟩
  · unfold extract_podcast_script
    obtain ⟨f, hf⟩ :
        ∃ f, ((c0 :: p') ++ ('{' :: t1) ++ j ++ q).length + 1 = f + 2 + 1 := by
      refine ⟨((c0 :: p') ++ ('{' :: t1) ++ j ++ q).length - 2, ?_⟩
      simp [List.length_append]
      omega
    rw [hf]
    have hcons : (c0 :: p') ++ ('{' :: t1) ++ j ++ q =
        c0 :: (p' ++ ('{' :: t1) ++ j ++ q) := by
      simp [List.cons_append, List.append_assoc]
    rw [hcons]
    have hjump : scanFuel (f + 2 + 1) (c0 :: (p' ++ ('{' :: t1) ++ j ++ q)) =
        scanFuel (f + 2) (('{' :: t1) ++ j ++ q) := by
      have hdec := @rawDecode_none_of_not_start c0
        (p' ++ ('{' :: t1) ++ j ++ q) hc0
      have hbr : dropUntilBrace (p' ++ ('{' :: t1) ++ j ++ q) =
          some (('{' :: t1) ++ j ++ q) := by
        have hnb : '{' ∉ p' := fun hm => hpb (List.mem_cons_of_mem _ hm)
        rw [List.append_assoc, List.append_assoc,
          dropUntilBrace_append_notMem hnb]
        rw [show ('{' :: t1) ++ (j ++ q) = '{' :: (t1 ++ (j ++ q)) from rfl]
        rw [dropUntilBrace_brace]
        simp [List.append_assoc]
      simp only [scanFuel, hdec, hbr]
    rw [hjump]
    exact scanFuel_two_step f _ _ q vSkip vTgt hj1ne hjqne hd1 ht1 hd2 ht2
  · unfold extract_podcast_script
    obtain ⟨f, hf⟩ : ∃ f, (('{' :: t1) ++ j ++ q).length + 1 = f + 2 := by
      refine ⟨(('{' :: t1) ++ j ++ q).length - 1, ?_⟩
      simp [List.length_append]
    rw [hf]
    exact scanFuel_two_step f _ _ q vSkip vTgt hj1ne hjqne hd1 ht1 hd2 ht2
  · intro s hne hstart hnb
    obtain ⟨c, s1, rfl⟩ : ∃ c s1, s = c :: s1 := by
      cases s with
      | nil => exact absurd rfl hne
      | cons c s1 => exact ⟨c, s1, rfl⟩
    unfold extract_podcast_script
    have hdec := @rawDecode_none_of_not_start c s1 (hstart c rfl)
    have hbr : dropUntilBrace s1 = none :=
      dropUntilBrace_none_of_notMem (fun hm => hnb (List.mem_cons_of_mem _ hm))
    simp only [scanFuel, hdec, hbr]

/-- Witness for C5: the target object is found behind prose and a decoy
JSON object, and plain prose with no brace fails the attempt. -/
theorem C5_extraction_scan_witness :
    extract_podcast_script ("Noise: ".toList ++ "\x7b\"a\": 1\x7d".toList ++
      "\x7b\"podcast_transcripts\": []\x7d".toList ++ " done".toList) =
      some (JVal.obj [("podcast_transcripts".toList, JVal.arr [])])
    ∧ extract_podcast_script ("\x7b\"a\": 1\x7d".toList ++
      "\x7b\"podcast_transcripts\": []\x7d".toList ++ " done".toList) =
      some (JVal.obj [("podcast_transcripts".toList, JVal.arr [])])
    ∧ extract_podcast_script "prose without json".toList = none := by
  have h := C5_extraction_scan "Noise: ".toList "\x7b\"a\": 1\x7d".toList
    "\x7b\"podcast_transcripts\": []\x7d".toList " done".toList
    (JVal.obj [("a".toList, JVal.num 1)])
    (JVal.obj [("podcast_transcripts".toList, JVal.arr [])])
    'N' "oise: ".toList rfl (by decide) (by decide)
    "\"a\": 1\x7d".toList rfl rfl rfl (by decide) rfl rfl
  refine ⟨h.1, h.2.1, ?_⟩
  refine h.2.2 "prose without json".toList (by decide) ?_ (by decide)
  intro ch hch
  have : ch = 'p' := by
    simpa using hch.symm
  rw [this]
  decide

theorem scriptGenGo_invocations_le (att : Nat → UpstreamAttempt) :
    ∀ (fuel a : Nat), (scriptGenGo att a fuel).invocations ≤ fuel := by
  intro fuel
  induction fuel with
  | zero => intro a; simp [scriptGenGo]
  | succ f ih =>
    intro a
    have hrest := ih (a + 1)
    cases hc : classifyAttempt (att a) <;> simp only [scriptGenGo, hc]
    all_goals first
      | omega
      | (by_cases hf : f = 0
         · subst hf
           show 1 ≤ 0 + 1
           omega
         · rw [if_neg hf]
           show (scriptGenGo att (a + 1) f).invocations + 1 ≤ f + 1
           omega)

theorem scriptGenGo_no_sleep (att : Nat → UpstreamAttempt)
    (h : ∀ i, classifyAttempt (att i) ≠ AttemptStep.transport ∧
              classifyAttempt (att i) ≠ AttemptStep.gateExc) :
    ∀ (fuel a : Nat), (scriptGenGo att a fuel).sleeps = [] := by
  intro fuel
  induction fuel with
  | zero => intro a; rfl
  | succ f ih =>
    intro a
    cases hc : classifyAttempt (att a) <;> simp only [scriptGenGo, hc]
    case transport => exact absurd hc (h a).1
    case gateExc => exact absurd hc (h a).2
    all_goals first
      | rfl
      | (by_cases hf : f = 0
         · subst hf
           rfl
         · rw [if_neg hf]
           show (scriptGenGo att (a + 1) f).sleeps = []
           exact ih (a + 1))

theorem scriptGenGo_success_step (att : Nat → UpstreamAttempt) (a f : Nat)
    (v : JVal) (h : classifyAttempt (att a) = AttemptStep.success v) :
    scriptGenGo att a (f + 1) = ⟨Except.ok v, 1, []⟩ := by
  simp only [scriptGenGo, h]

theorem scriptGenGo_transport_step (att : Nat → UpstreamAttempt) (a f : Nat)
    (h : classifyAttempt (att a) = AttemptStep.transport) (hf : f ≠ 0) :
    scriptGenGo att a (f + 1) =
      ⟨(scriptGenGo att (a + 1) f).result,
       (scriptGenGo att (a + 1) f).invocations + 1,
       (a + 1) :: (scriptGenGo att (a + 1) f).sleeps⟩ := by
  simp only [scriptGenGo, h]
  rw [if_neg hf]

theorem scriptGenGo_noObject_step (att : Nat → UpstreamAttempt) (a f : Nat)
    (raw : List Char)
    (h : classifyAttempt (att a) = AttemptStep.noObject raw) (hf : f ≠ 0) :
    scriptGenGo att a (f + 1) =
      ⟨(scriptGenGo att (a + 1) f).result,
       (scriptGenGo att (a + 1) f).invocations + 1,
       (scriptGenGo att (a + 1) f).sleeps⟩ := by
  simp only [scriptGenGo, h]
  rw [if_neg hf]

theorem scriptGenGo_noObject_last (att : Nat → UpstreamAttempt) (a : Nat)
    (raw : List Char)
    (h : classifyAttempt (att a) = AttemptStep.noObject raw) :
    scriptGenGo att a (0 + 1) =
      ⟨Except.error (ScriptGenError.noValidScript raw), 1, []⟩ := by
  simp only [scriptGenGo, h]
  simp

/-- C8 (amended): the extractor is invoked at most 3 times; structural
failures (no object found, empty transcripts, quality-gate rejection) are
retried with no delay; a transport failure on attempt `k` is retried after
a `time.sleep` of `1·k` seconds — a linearly growing delay (1 s then 2 s),
not a fixed one; and exhausting the 3 attempts on scan failures raises the
fatal error embedding the raw content that could not be parsed. -/
theorem C8_script_retry (att : Nat → UpstreamAttempt) :
    ((generate_podcast_script_run att).invocations ≤ 3)
    ∧ ((∀ i, classifyAttempt (att i) ≠ AttemptStep.transport ∧
          classifyAttempt (att i) ≠ AttemptStep.gateExc) →
        (generate_podcast_script_run att).sleeps = [])
    ∧ (∀ v, classifyAttempt (att 0) = AttemptStep.transport →
        classifyAttempt (att 1) = AttemptStep.transport →
        classifyAttempt (att 2) = AttemptStep.success v →
        (generate_podcast_script_run att).result = Except.ok v ∧
        (generate_podcast_script_run att).sleeps = [1, 2] ∧
        (generate_podcast_script_run att).invocations = 3)
    ∧ (∀ r0 r1 r2, classifyAttempt (att 0) = AttemptStep.noObject r0 →
        classifyAttempt (att 1) = AttemptStep.noObject r1 →
        classifyAttempt (att 2) = AttemptStep.noObject r2 →
        (generate_podcast_script_run att).result =
          Except.error (ScriptGenError.noValidScript r2) ∧
        (generate_podcast_script_run att).sleeps = [] ∧
        (generate_podcast_script_run att).invocations = 3) := by
  refine ⟨scriptGenGo_invocations_le att 3 0, ?_, ?_, ?_⟩
  · intro h
    exact scriptGenGo_no_sleep att h 3 0
  · intro v h0 h1 h2
    have s1 : scriptGenGo att 2 (0 + 1) = ⟨Except.ok v, 1, []⟩ :=
      scriptGenGo_success_step att 2 0 v h2
    have s2 : scriptGenGo att 1 (1 + 1) = ⟨Except.ok v, 2, [2]⟩ := by
      rw [scriptGenGo_transport_step att 1 1 h1 (by omega)]
      rw [show scriptGenGo att (1 + 1) 1 = scriptGenGo att 2 (0 + 1) from rfl, s1]
    have s3 : scriptGenGo att 0 (2 + 1) = ⟨Except.ok v, 3, [1, 2]⟩ := by
      rw [scriptGenGo_transport_step att 0 2 h0 (by omega)]
      rw [show scriptGenGo att (0 + 1) 2 = scriptGenGo att 1 (1 + 1) from rfl, s2]
    have e : generate_podcast_script_run att = scriptGenGo att 0 (2 + 1) := rfl
    rw [e, s3]
    exact ⟨rfl, rfl, rfl⟩
  · intro r0 r1 r2 h0 h1 h2
    have s1 : scriptGenGo att 2 (0 + 1) =
        ⟨Except.error (ScriptGenError.noValidScript r2), 1, []⟩ :=
      scriptGenGo_noObject_last att 2 r2 h2
    have s2 : scriptGenGo att 1 (1 + 1) =
        ⟨Except.error (ScriptGenError.noValidScript r2), 2, []⟩ := by
      rw [scriptGenGo_noObject_step att 1 1 r1 h1 (by omega)]
      rw [show scriptGenGo att (1 + 1) 1 = scriptGenGo att 2 (0 + 1) from rfl, s1]
    have s3 : scriptGenGo att 0 (2 + 1) =
        ⟨Except.error (ScriptGenError.noValidScript r2), 3, []⟩ := by
      rw [scriptGenGo_noObject_step att 0 2 r0 h0 (by omega)]
      rw [show scriptGenGo att (0 + 1) 2 = scriptGenGo att 1 (1 + 1) from rfl, s2]
    have e : generate_podcast_script_run att = scriptGenGo att 0 (2 + 1) := rfl
    rw [e, s3]
    exact ⟨rfl, rfl, rfl⟩

/-- Witness for C8: two transport failures then a good script give 3
invocations, backoff sleeps, and the parsed script. -/
theorem C8_script_retry_witness :
    (generate_podcast_script_run attTwoTransportThenGood).result =
      Except.ok (JVal.obj [("podcast_transcripts".toList,
        JVal.arr [JVal.obj [("speaker_id".toList, JVal.num 0),
          ("dialog".toList, JVal.str "hi".toList)]])])
    ∧ (generate_podcast_script_run attTwoTransportThenGood).sleeps = [1, 2]
    ∧ (generate_podcast_script_run attTwoTransportThenGood).invocations = 3 := by
  have h := (C8_script_retry attTwoTransportThenGood).2.2.1
    (JVal.obj [("podcast_transcripts".toList,
      JVal.arr [JVal.obj [("speaker_id".toList, JVal.num 0),
        ("dialog".toList, JVal.str "hi".toList)]])])
    rfl rfl rfl
  exact ⟨h.1, h.2.1, h.2.2⟩

/-- Counterexample for C8 as stated: with transport failures on the first
two attempts the recorded delays are 1 s and then 2 s, so no single fixed
backoff delay covers the retries. -/
theorem C8_counterexample :
    (generate_podcast_script_run attTwoTransportThenGood).sleeps = [1, 2]
    ∧ ¬ ∃ d, ∀ x ∈ (generate_podcast_script_run attTwoTransportThenGood).sleeps,
        x = d := by
  have hs : (generate_podcast_script_run attTwoTransportThenGood).sleeps = [1, 2] := by
    rfl
  refine ⟨hs, ?_⟩
  rw [hs]
  rintro ⟨d, hd⟩
  have h1 := hd 1 (by simp)
  have h2 := hd 2 (by simp)
  omega

end PodcastGen
